import Mathlib

/-! Feed generator: query builder and per-ticker aggregation.

A shallow embedding of `src/index.js`: the query builder (`term`, `buildQuery`), the
collection loop of `fetchForCoin` over a paginated search result, the aggregation of the
collected rows, the ranking of the top tweets and the loop of the main function over the tickers,
followed by the properties proved about them.

Conventions of the embedding.
* JavaScript strings are `String`; `t.startsWith(c)` for a one-character `c` looks at the first
  character.
* Counts are natural numbers (the API delivers non-negative integers, and sums of a few hundred
  of them stay far inside the exactly representable range of a JavaScript number).
* A field that can be missing is an `Option`; `x || 0` is `orZero`, `!!x` is `truthyBool`.
* `client.v2.search` and the paginator it returns belong to the `twitter-api-v2` package, not to
  this repository: a paginator is the sequence of pages it delivers, each page with its
  `includes.users` batch and its tweets, and fetching a page after the first can raise a fault.
-/

namespace Feed

/-! ## Query builder (`src/index.js`, lines 27-31) -/

/-- JavaScript `t.startsWith(c)` for a pattern `c` of one character. -/
def startsWithChar (t : String) (c : Char) : Bool :=
  match t.data with
  | [] => false
  | d :: _ => d == c

/-- Line 28: `term = t => (t.startsWith('$') || t.startsWith('#')) ? t : "\"" + t + "\""`. -/
def term (t : String) : String :=
  if startsWithChar t '$' || startsWithChar t '#' then t else "\"" ++ t ++ "\""

/-- Lines 29-31: `buildQuery`, the two template literals of the source concatenated. -/
def buildQuery (aliases : List String) : String :=
  "(" ++ String.intercalate " OR " (aliases.map term) ++ ") lang:en -is:retweet -is:reply " ++
  "-has:cashtags (\"presale\" OR \"airdrop\" OR \"giveaway\" OR \"bonding curve\" OR \"stealth launch\") (min_faves:5 OR has:mentions OR has:links)"

/-! ### The clauses of the specification

The specification lists, after the group of terms, six clauses in a fixed order. They are
written here clause by clause, to be compared with the text that `buildQuery` appends. -/

/-- The restriction to English. -/
def langClause : String := "lang:en"

/-- The exclusion of re-shares. -/
def retweetExclusion : String := "-is:retweet"

/-- The exclusion of replies. -/
def replyExclusion : String := "-is:reply"

/-- The exclusion of posts carrying cashtags. -/
def cashtagExclusion : String := "-has:cashtags"

/-- The disjunction of the five promotional keywords, in parentheses. -/
def promoGroup : String :=
  "(\"presale\" OR \"airdrop\" OR \"giveaway\" OR \"bonding curve\" OR \"stealth launch\")"

/-- The quality gate. -/
def qualityGate : String := "(min_faves:5 OR has:mentions OR has:links)"

/-- The six clauses in the order of the specification, each preceded by one blank. -/
def fixedSuffix : String :=
  " " ++ langClause ++ " " ++ retweetExclusion ++ " " ++ replyExclusion ++ " " ++
    cashtagExclusion ++ " " ++ promoGroup ++ " " ++ qualityGate

/-- The alias list of the ticker `LINK` in `COINS` (line 15). -/
def linkAliases : List String := ["Chainlink", "$LINK", "#LINK"]

/-- The alias list of the ticker `IP` in `COINS` (line 19). -/
def ipAliases : List String := ["Story Protocol", "Story", "$IP", "#IP"]

/-- Number of positions of `s` at which `pat` occurs as a substring. -/
def occurrences (pat s : List Char) : Nat :=
  (s.tails.filter (fun t => pat.isPrefixOf t)).length

/-- Number of substring occurrences of `pat` in `s`. -/
def countSubstr (pat s : String) : Nat := occurrences pat.data s.data

/-- Whether `pat` occurs in `s` as a substring. -/
def hasSubstr (pat s : String) : Bool := decide (0 < countSubstr pat s)

/-! ## Data model -/

/-- The `public_metrics` object of a user record. -/
structure UserMetrics where
  followers_count : Option Nat
  deriving DecidableEq, Repr

/-- An author record of `includes.users`. -/
structure User where
  id : String
  username : Option String
  verified : Option Bool
  public_metrics : Option UserMetrics
  deriving DecidableEq, Repr

/-- The `public_metrics` object of a tweet. -/
structure TweetMetrics where
  like_count : Option Nat
  retweet_count : Option Nat
  reply_count : Option Nat
  quote_count : Option Nat
  deriving DecidableEq, Repr

/-- A tweet as delivered by the paginator. -/
structure Tweet where
  id : String
  created_at : String
  text : String
  public_metrics : Option TweetMetrics
  author_id : String
  deriving DecidableEq, Repr

/-- The object pushed onto `rows` (lines 57-69). -/
structure Row where
  id : String
  created_at : String
  text : String
  like_count : Nat
  retweet_count : Nat
  reply_count : Nat
  quote_count : Nat
  author_id : String
  author_username : Option String
  author_verified : Bool
  author_followers : Nat
  deriving DecidableEq, Repr

/-- An entry of `top_tweets` (lines 83-91). -/
structure TopTweet where
  id : String
  url : String
  author_username : Option String
  verified : Bool
  followers : Nat
  engagement : Nat
  created_at : String
  deriving DecidableEq, Repr

/-- An entry of `COINS`. -/
structure Coin where
  symbol : String
  aliases : List String
  deriving DecidableEq, Repr

/-- The object returned by `fetchForCoin` (lines 93-102). -/
structure CoinData where
  symbol : String
  query : String
  window_start : String
  mentions : Nat
  unique_verified_accounts : Nat
  unique_100kplus_accounts : Nat
  total_engagements : Nat
  top_tweets : List TopTweet
  deriving DecidableEq, Repr

/-- An entry of `out.coins`: the data of a ticker, or `{ symbol, error }` (lines 108-113). -/
inductive CoinEntry where
  | data (d : CoinData)
  | failed (symbol : String) (error : String)
  deriving DecidableEq, Repr

/-- One page of a search result: its `includes.users` batch (possibly missing) and its tweets. -/
structure Page where
  users : Option (List User)
  tweets : List Tweet
  deriving Repr

/-- The paginator returned by `client.v2.search`: the first page, already fetched, and the pages
fetched on demand while iterating, each of which can fail with a fault. -/
structure Paginator where
  first : Page
  more : List (Except String Page)

/-! ## JavaScript helpers -/

/-- JavaScript `x || 0` on a possibly missing count. -/
def orZero : Option Nat → Nat
  | some n => n
  | none => 0

/-- JavaScript `!!x` on a possibly missing boolean. -/
def truthyBool : Option Bool → Bool
  | some b => b
  | none => false

/-- JavaScript `Map.prototype.set`: replaces the value of an existing key, else appends the entry. -/
def mapSet : List (String × User) → String → User → List (String × User)
  | [], k, v => [(k, v)]
  | (k1, v1) :: m, k, v => if k1 = k then (k1, v) :: m else (k1, v1) :: mapSet m k v

/-- JavaScript `Map.prototype.get`. -/
def mapGet : List (String × User) → String → Option User
  | [], _ => none
  | (k1, v1) :: m, k => if k1 = k then some v1 else mapGet m k

/-- Line 49: `pushUsers = (arr=[]) => arr.forEach(u => users.set(u.id, u))`. -/
def pushUsers (users : List (String × User)) (arr : Option (List User)) : List (String × User) :=
  (arr.getD []).foldl (fun m u => mapSet m u.id u) users

/-- JavaScript `new Set(xs)`: the elements of `xs` in order of first appearance. -/
def newSet (xs : List String) : List String :=
  xs.foldl (fun s x => if x ∈ s then s else s ++ [x]) []

/-- JavaScript `Set.prototype.size`. -/
def setSize (s : List String) : Nat := s.length

/-! ## Collection loop (lines 47-71) -/

/-- Lines 55-69: the row built from a tweet and the current author index. -/
def mkRow (users : List (String × User)) (tweet : Tweet) : Row :=
  let u := mapGet users tweet.author_id
  let pm := tweet.public_metrics
  { id := tweet.id
    created_at := tweet.created_at
    text := tweet.text
    like_count := orZero (pm.bind (·.like_count))
    retweet_count := orZero (pm.bind (·.retweet_count))
    reply_count := orZero (pm.bind (·.reply_count))
    quote_count := orZero (pm.bind (·.quote_count))
    author_id := tweet.author_id
    author_username := u.bind (·.username)
    author_verified := truthyBool (u.bind (·.verified))
    author_followers := orZero ((u.bind (·.public_metrics)).bind (·.followers_count)) }

/-- What the asynchronous iterator of a paginator delivers after the first page: the tweets of
each further page in order, or the fault of the first page that fails to load. -/
def laterItems : List (Except String Page) → List (Except String Tweet)
  | [] => []
  | .error e :: _ => [.error e]
  | .ok p :: ps => p.tweets.map .ok ++ laterItems ps

/-- The items of `for await (const tweet of paginator)`, in delivery order. -/
def Paginator.items (p : Paginator) : List (Except String Tweet) :=
  p.first.tweets.map .ok ++ laterItems p.more

/-- State of the loop when it ends: the rows, the counter `pulled` and the items of the
iterator that were never requested. -/
structure Collected where
  rows : List Row
  pulled : Nat
  unread : List (Except String Tweet)

/-- Lines 54-71: the `for await` loop, one item per step; a fault of the iterator is thrown. -/
def forAwait (users : List (String × User)) :
    List (Except String Tweet) → List Row → Nat → Except String Collected
  | [], rows, pulled => .ok ⟨rows, pulled, []⟩
  | .error e :: _, _, _ => .error e
  | .ok tweet :: rest, rows, pulled =>
    let rows1 := rows ++ [mkRow users tweet]
    let pulled1 := pulled + 1
    if pulled1 ≥ 300 then .ok ⟨rows1, pulled1, rest⟩ else forAwait users rest rows1 pulled1

/-- Lines 47-71: the author index is filled once, from `paginator.includes?.users` as it is
before the iteration starts (the batch of the first page), then the loop runs. -/
def collect (paginator : Paginator) : Except String Collected :=
  let users := pushUsers [] paginator.first.users
  forAwait users paginator.items [] 0

/-! ## Aggregation and ranking (lines 73-102) -/

/-- The sum `like_count + retweet_count + reply_count + quote_count` of a row, as written in the
comparator (lines 80-81) and in the projection (line 89). -/
def rowSum (r : Row) : Nat := r.like_count + r.retweet_count + r.reply_count + r.quote_count

/-- Line 74: `uniqVerified`. -/
def uniqVerified (rows : List Row) : List String :=
  newSet ((rows.filter (fun r => r.author_verified)).map (fun r => r.author_id))

/-- Line 75: `over100k`. -/
def over100k (rows : List Row) : List String :=
  newSet ((rows.filter (fun r => decide (r.author_followers ≥ 100000))).map (fun r => r.author_id))

/-- Line 76: `engagements`, the `reduce` from the left starting at `0`. -/
def engagements (rows : List Row) : Nat :=
  rows.foldl (fun s r => s + r.like_count + r.retweet_count + r.reply_count + r.quote_count) 0

/-- Lines 80-81: the comparator handed to `sort`. -/
def compareRows (a b : Row) : Int := (rowSum b : Int) - (rowSum a : Int)

/-- The order `a` before `b` that the comparator allows: `compareRows a b ≤ 0`. -/
def rankedBefore (a b : Row) : Prop := compareRows a b ≤ 0

instance : DecidableRel rankedBefore := fun a b => inferInstanceAs (Decidable (compareRows a b ≤ 0))

/-- JavaScript `Array.prototype.sort` with `compareRows`. The sort of ECMAScript is stable, and for a
consistent comparator its result is the one stable arrangement, computed here by insertion. -/
def sortRows (rows : List Row) : List Row := rows.insertionSort rankedBefore

/-- Lines 83-91: the projection of a row into `top_tweets`; a username is used when it is
truthy, that is present and not the empty string. -/
def view (r : Row) : TopTweet :=
  { id := r.id
    url :=
      match r.author_username with
      | some name =>
        if name ≠ "" then "https://twitter.com/" ++ name ++ "/status/" ++ r.id
        else "https://twitter.com/i/web/status/" ++ r.id
      | none => "https://twitter.com/i/web/status/" ++ r.id
    author_username := r.author_username
    verified := r.author_verified
    followers := r.author_followers
    engagement := r.like_count + r.retweet_count + r.reply_count + r.quote_count
    created_at := r.created_at }

/-- Lines 79-91: `topTweets`. -/
def topTweets (rows : List Row) : List TopTweet :=
  ((sortRows rows).take 15).map view

/-- Lines 73-102: the result object built from the collected rows. The sort is in place, so
`mentions` is the length of the sorted array. -/
def summarize (coin : Coin) (q sinceISO : String) (rows : List Row) : CoinData :=
  let uv := uniqVerified rows
  let o := over100k rows
  let e := engagements rows
  let top := topTweets rows
  { symbol := coin.symbol
    query := q
    window_start := sinceISO
    mentions := (sortRows rows).length
    unique_verified_accounts := setSize uv
    unique_100kplus_accounts := setSize o
    total_engagements := e
    top_tweets := top }

/-- Lines 37-103: `fetchForCoin`. `search q start` stands for `client.v2.search` called with
the query and `start_time`; it returns a paginator or raises a fault. -/
def fetchForCoin (search : String → String → Except String Paginator) (sinceISO : String)
    (coin : Coin) : Except String CoinData :=
  let q := buildQuery coin.aliases
  match search q sinceISO with
  | .error e => .error e
  | .ok paginator =>
    match collect paginator with
    | .error e => .error e
    | .ok c => .ok (summarize coin q sinceISO c.rows)

/-- Lines 107-114: the loop over `COINS`. `search i` is the search API as it answers while the
ticker of index `i` is processed; the entry of a ticker whose fetch raises a fault is
`{ symbol, error }`. -/
def runCoins (search : Nat → String → String → Except String Paginator) (sinceISO : String) :
    List Coin → Nat → List CoinEntry → List CoinEntry
  | [], _, out => out
  | c :: cs, i, out =>
    match fetchForCoin (search i) sinceISO c with
    | .ok d => runCoins search sinceISO cs (i + 1) (out ++ [.data d])
    | .error e => runCoins search sinceISO cs (i + 1) (out ++ [.failed c.symbol e])

/-- The rows collected from a paginator; no rows when the collection raises a fault. -/
def collectedRows (p : Paginator) : List Row :=
  match collect p with
  | .ok c => c.rows
  | .error _ => []

/-- The four author fields of a row. -/
def authorFields (r : Row) : String × Option String × Bool × Nat :=
  (r.author_id, r.author_username, r.author_verified, r.author_followers)

instance : IsTotal Row rankedBefore :=
  ⟨fun a b => by unfold rankedBefore compareRows; omega⟩

instance : IsTrans Row rankedBefore :=
  ⟨fun a b c => by unfold rankedBefore compareRows; omega⟩

/-! ## Sample inputs -/

/-- The ticker `LINK` of `COINS`. -/
def linkCoin : Coin := { symbol := "LINK", aliases := linkAliases }

/-- A verified author with 250000 followers. -/
def alice : User :=
  { id := "1", username := some "alice", verified := some true,
    public_metrics := some { followers_count := some 250000 } }

/-- A verified author with 500000 followers. -/
def bob : User :=
  { id := "2", username := some "bob", verified := some true,
    public_metrics := some { followers_count := some 500000 } }

/-- A tweet with the given id, author id and number of likes. -/
def tweetBy (id author : String) (likes : Nat) : Tweet :=
  { id := id, created_at := "2024-01-01T00:00:00.000Z", text := "gm",
    public_metrics := some { like_count := some likes, retweet_count := some 0,
                             reply_count := some 0, quote_count := none },
    author_id := author }

/-- A search result of two pages: the first holds a tweet of `alice` and her record, the second
a tweet of `bob` and his record. -/
def twoPages : Paginator :=
  { first := { users := some [alice], tweets := [tweetBy "101" "1" 7] }
    more := [.ok { users := some [bob], tweets := [tweetBy "102" "2" 9] }] }

/-- A search result of one page with 301 tweets and no author batch. -/
def longPage : Paginator :=
  { first := { users := none, tweets := List.replicate 301 (tweetBy "101" "1" 7) }
    more := [] }

/-- A row with the given id, author id, likes, followers and verified flag. -/
def sampleRow (id author : String) (likes followers : Nat) (verified : Bool) : Row :=
  { id := id, created_at := "2024-01-01T00:00:00.000Z", text := "gm",
    like_count := likes, retweet_count := 0, reply_count := 0, quote_count := 0,
    author_id := author, author_username := none, author_verified := verified,
    author_followers := followers }

/-- Three rows in arrival order, with engagements 10, 50 and 50. -/
def threeRows : List Row :=
  [sampleRow "1" "a" 10 0 false, sampleRow "2" "b" 50 0 false, sampleRow "3" "c" 50 0 false]

/-- A row with a known author username. -/
def namedRow (id author name : String) (likes : Nat) : Row :=
  { id := id, created_at := "2024-01-01T00:00:00.000Z", text := "gm",
    like_count := likes, retweet_count := 0, reply_count := 0, quote_count := 0,
    author_id := author, author_username := some name, author_verified := false,
    author_followers := 0 }

/-- Two rows in arrival order: one without a username, one of the author `alice`. -/
def mixedRows : List Row :=
  [sampleRow "8" "b" 1 0 false, namedRow "7" "1" "alice" 3]

/-- Sixteen rows in arrival order, with engagements 0, 1, ..., 15. -/
def sixteenRows : List Row :=
  (List.range 16).map (fun n => sampleRow "1" "a" n 0 false)

/-- A second record for the author id of `alice`, with other metadata. -/
def aliceRenamed : User :=
  { id := "1", username := some "alice2", verified := some false,
    public_metrics := some { followers_count := some 10 } }

/-- The `symbol` field of an entry of `out.coins`. -/
def CoinEntry.symbol : CoinEntry → String
  | .data d => d.symbol
  | .failed s _ => s

/-- Lines 108-113: the entry pushed for one ticker, from the outcome of its `fetchForCoin`. -/
def entryFor (search : String → String → Except String Paginator) (sinceISO : String)
    (c : Coin) : CoinEntry :=
  match fetchForCoin search sinceISO c with
  | .ok d => .data d
  | .error e => .failed c.symbol e

/-- The ticker `IP` of `COINS`. -/
def ipCoin : Coin := { symbol := "IP", aliases := ipAliases }

/-- A search API that answers every ticker with the two pages of `twoPages`. -/
def healthySearch : Nat → String → String → Except String Paginator :=
  fun _ _ _ => .ok twoPages

/-- A search API that raises a fault for the first ticker and answers the others as
`healthySearch` does. -/
def firstFaultySearch : Nat → String → String → Except String Paginator :=
  fun j => if j = 0 then (fun _ _ => .error "Error: rate limit") else (fun _ _ => .ok twoPages)

/-- A search result whose second page fails to load, after one post. -/
def faultyPages : Paginator :=
  { first := { users := some [alice], tweets := [tweetBy "101" "1" 7] }
    more := [.error "Error: rate limit"] }

/-- A search result of 300 posts whose next page fails to load. -/
def faultAfterCap : Paginator :=
  { first := { users := none, tweets := List.replicate 300 (tweetBy "101" "1" 7) }
    more := [.error "Error: rate limit"] }

/-- A search API that answers the query of the empty alias list only. -/
def emptyGroupSearch : String → String → Except String Paginator :=
  fun q _ => if q = "()" ++ fixedSuffix then .ok twoPages else .error "Error: other query"

/-! ## Properties of the query builder -/

theorem occurrences_pos (pat l1 l2 : List Char) : 0 < occurrences pat (l1 ++ pat ++ l2) := by
  unfold occurrences
  apply List.length_pos_of_mem (a := pat ++ l2)
  rw [List.mem_filter]
  refine ⟨?_, ?_⟩
  · rw [List.mem_tails, List.append_assoc]
    exact List.suffix_append l1 (pat ++ l2)
  · rw [List.isPrefixOf_iff_prefix]
    exact List.prefix_append pat l2

theorem intercalate_go_acc (s : String) :
    ∀ (ts : List String) (acc : String),
      ∃ l2, (String.intercalate.go acc s ts).data = acc.data ++ l2 := by
  intro ts
  induction ts with
  | nil => intro acc; exact ⟨[], by simp [String.intercalate.go]⟩
  | cons a as ih =>
    intro acc
    obtain ⟨l2, h⟩ := ih (acc ++ s ++ a)
    refine ⟨s.data ++ a.data ++ l2, ?_⟩
    simp [String.intercalate.go, h, List.append_assoc]

theorem intercalate_go_mem (s : String) :
    ∀ (ts : List String) (acc t : String), t ∈ ts →
      ∃ l1 l2, (String.intercalate.go acc s ts).data = l1 ++ t.data ++ l2 := by
  intro ts
  induction ts with
  | nil => intro acc t h; simp at h
  | cons a as ih =>
    intro acc t h
    rcases List.mem_cons.mp h with h1 | h1
    · subst h1
      obtain ⟨l2, h2⟩ := intercalate_go_acc s as (acc ++ s ++ t)
      refine ⟨acc.data ++ s.data, l2, ?_⟩
      simp [String.intercalate.go, h2, List.append_assoc]
    · obtain ⟨l1, l2, h2⟩ := ih (acc ++ s ++ a) t h1
      exact ⟨l1, l2, by simp [String.intercalate.go, h2]⟩

theorem intercalate_mem (s : String) (ts : List String) (t : String) (h : t ∈ ts) :
    ∃ l1 l2, (String.intercalate s ts).data = l1 ++ t.data ++ l2 := by
  cases ts with
  | nil => simp at h
  | cons a as =>
    rcases List.mem_cons.mp h with h1 | h1
    · subst h1
      obtain ⟨l2, h2⟩ := intercalate_go_acc s as t
      exact ⟨[], l2, by simp [String.intercalate, h2]⟩
    · obtain ⟨l1, l2, h2⟩ := intercalate_go_mem s as a t h1
      exact ⟨l1, l2, by simp [String.intercalate, h2]⟩

theorem term_data (a : String) : ∃ l1 l2, (term a).data = l1 ++ a.data ++ l2 := by
  unfold term
  split
  · exact ⟨[], [], by simp⟩
  · exact ⟨['"'], ['"'], by simp⟩

theorem term_of_tag (a : String) (h : (startsWithChar a '$' || startsWithChar a '#') = true) :
    term a = a := by
  simp [term, h]

theorem term_of_plain (a : String) (h : (startsWithChar a '$' || startsWithChar a '#') = false) :
    term a = "\"" ++ a ++ "\"" := by
  simp [term, h]

theorem quoted_ne_self (a : String) : "\"" ++ a ++ "\"" ≠ a := by
  intro h
  have h1 := congrArg String.length h
  simp only [String.length_append] at h1
  have h2 : "\"".length = 1 := by decide
  omega

set_option maxRecDepth 100000 in
theorem buildQuery_eq (aliases : List String) :
    buildQuery aliases =
      "(" ++ String.intercalate " OR " (aliases.map term) ++ ")" ++ fixedSuffix := by
  have h : ") lang:en -is:retweet -is:reply " ++
      "-has:cashtags (\"presale\" OR \"airdrop\" OR \"giveaway\" OR \"bonding curve\" OR \"stealth launch\") (min_faves:5 OR has:mentions OR has:links)"
      = ")" ++ fixedSuffix := by decide
  unfold buildQuery
  rw [String.append_assoc, h, ← String.append_assoc]

theorem buildQuery_mem (aliases : List String) (a : String) (h : a ∈ aliases) :
    0 < countSubstr a (buildQuery aliases) := by
  obtain ⟨l1, l2, h1⟩ :=
    intercalate_mem " OR " (aliases.map term) (term a) (List.mem_map_of_mem term h)
  obtain ⟨m1, m2, h2⟩ := term_data a
  have h3 : (buildQuery aliases).data =
      ("(".data ++ l1 ++ m1) ++ a.data ++ (m2 ++ l2 ++ (")" ++ fixedSuffix).data) := by
    rw [buildQuery_eq]
    simp only [String.data_append, h1, h2, List.append_assoc]
  unfold countSubstr
  rw [h3]
  exact occurrences_pos _ _ _

set_option maxRecDepth 100000 in
/-- C1: for every alias list (so for every non-empty one) `buildQuery` returns `(`, the terms of
the aliases joined with ` OR `, `)`, and then one suffix that is the same for all alias lists and
holds, in this order, the English restriction, the retweet exclusion, the reply exclusion, the
cashtag exclusion, the promotional-keyword group and the quality gate; for the aliases of `LINK`
the group is `("Chainlink" OR $LINK OR #LINK)`. -/
theorem buildQuery_group_then_suffix (aliases : List String) :
    buildQuery aliases =
        "(" ++ String.intercalate " OR " (aliases.map term) ++ ")" ++ fixedSuffix ∧
      fixedSuffix =
        " lang:en" ++ " -is:retweet" ++ " -is:reply" ++ " -has:cashtags" ++
          " (\"presale\" OR \"airdrop\" OR \"giveaway\" OR \"bonding curve\" OR \"stealth launch\")" ++
          " (min_faves:5 OR has:mentions OR has:links)" ∧
      buildQuery ["Chainlink", "$LINK", "#LINK"] =
        "(\"Chainlink\" OR $LINK OR #LINK)" ++ fixedSuffix :=
  ⟨buildQuery_eq aliases, by decide, by decide⟩

set_option maxRecDepth 100000 in
/-- C2, the code at the aliases of `LINK`: the promotional-keyword group occurs once in the
query, preceded by a blank and not by `-`; the negated group does not occur at all, so the query
requires one of the five keywords instead of excluding them. -/
theorem buildQuery_promo_group_not_negated :
    buildQuery linkAliases =
        "(\"Chainlink\" OR $LINK OR #LINK) lang:en -is:retweet -is:reply -has:cashtags" ++
          " " ++ promoGroup ++ " " ++ qualityGate ∧
      countSubstr promoGroup (buildQuery linkAliases) = 1 ∧
      countSubstr (" " ++ promoGroup) (buildQuery linkAliases) = 1 ∧
      hasSubstr ("-" ++ promoGroup) (buildQuery linkAliases) = false := by
  decide

set_option maxRecDepth 100000 in
/-- C3 as stated fails: it is not true that every alias occurs exactly once in the query. For
the aliases of `IP`, the alias `Story` occurs twice, once inside the term of `Story Protocol`. -/
theorem buildQuery_alias_not_once :
    ¬ ∀ (aliases : List String) (a : String), a ∈ aliases →
        countSubstr a (buildQuery aliases) = 1 := by
  intro h
  have h1 := h ipAliases "Story" (by decide)
  have h2 : countSubstr "Story" (buildQuery ipAliases) = 2 := by decide
  omega

/-- C3 amended: the group of the query holds exactly one term per alias, in alias order; the
term of an alias is the alias wrapped in double quotes if and only if the alias does not start
with `$` or `#`, and the alias itself if and only if it does; and the query contains every alias
at least once as a substring. -/
theorem buildQuery_alias_terms (aliases : List String) (i : Nat) (h : i < aliases.length) :
    buildQuery aliases =
        "(" ++ String.intercalate " OR " (aliases.map term) ++ ")" ++ fixedSuffix ∧
      (aliases.map term).length = aliases.length ∧
      (aliases.map term)[i]? = some (term aliases[i]) ∧
      (term aliases[i] = "\"" ++ aliases[i] ++ "\"" ↔
        ¬ (startsWithChar aliases[i] '$' = true ∨ startsWithChar aliases[i] '#' = true)) ∧
      (term aliases[i] = aliases[i] ↔
        (startsWithChar aliases[i] '$' = true ∨ startsWithChar aliases[i] '#' = true)) ∧
      1 ≤ countSubstr aliases[i] (buildQuery aliases) := by
  refine ⟨buildQuery_eq aliases, List.length_map _ _, ?_, ?_, ?_, ?_⟩
  · simp [List.getElem?_map, List.getElem?_eq_getElem h]
  · cases hc : (startsWithChar aliases[i] '$' || startsWithChar aliases[i] '#') with
    | true =>
      rw [term_of_tag _ hc]
      have hc1 := hc
      rw [Bool.or_eq_true] at hc1
      constructor
      · intro h1
        exact absurd h1.symm (quoted_ne_self _)
      · intro h1
        exact absurd hc1 h1
    | false =>
      rw [term_of_plain _ hc]
      have hc1 := hc
      rw [Bool.or_eq_false_iff] at hc1
      constructor
      · intro _ h2
        rcases h2 with h2 | h2
        · rw [hc1.1] at h2; exact Bool.false_ne_true h2
        · rw [hc1.2] at h2; exact Bool.false_ne_true h2
      · intro _
        rfl
  · cases hc : (startsWithChar aliases[i] '$' || startsWithChar aliases[i] '#') with
    | true =>
      rw [term_of_tag _ hc]
      have hc1 := hc
      rw [Bool.or_eq_true] at hc1
      exact ⟨fun _ => hc1, fun _ => rfl⟩
    | false =>
      rw [term_of_plain _ hc]
      have hc1 := hc
      rw [Bool.or_eq_false_iff] at hc1
      constructor
      · intro h1
        exact absurd h1 (quoted_ne_self _)
      · intro h2
        rcases h2 with h2 | h2
        · rw [hc1.1] at h2; exact absurd h2 Bool.false_ne_true
        · rw [hc1.2] at h2; exact absurd h2 Bool.false_ne_true
  · exact buildQuery_mem aliases aliases[i] (List.getElem_mem h)

set_option maxRecDepth 100000 in
/-- Witness of `buildQuery_alias_terms`: the second alias of `IP`, `Story`, is a plain name; its
term is quoted and the query contains it. -/
theorem buildQuery_alias_terms_witness :
    1 < ipAliases.length ∧
      term "Story" = "\"Story\"" ∧
      1 ≤ countSubstr "Story" (buildQuery ipAliases) :=
  ⟨by decide,
    ((buildQuery_alias_terms ipAliases 1 (by decide)).2.2.2.1).mpr (by decide),
    (buildQuery_alias_terms ipAliases 1 (by decide)).2.2.2.2.2⟩

/-! ## Properties of the collection loop -/

theorem forAwait_ok (users : List (String × User)) :
    ∀ (posts : List Tweet) (rows : List Row) (pulled : Nat), pulled < 300 →
      forAwait users (posts.map Except.ok) rows pulled =
        .ok ⟨rows ++ (posts.take (300 - pulled)).map (mkRow users),
             pulled + min (300 - pulled) posts.length,
             (posts.drop (300 - pulled)).map Except.ok⟩ := by
  intro posts
  induction posts with
  | nil => intro rows pulled _; simp [forAwait]
  | cons t rest ih =>
    intro rows pulled hp
    obtain ⟨k, hk⟩ : ∃ k, 300 - pulled = k + 1 := ⟨299 - pulled, by omega⟩
    rw [hk]
    simp only [List.map_cons, forAwait, List.take_succ_cons, List.drop_succ_cons,
      List.length_cons]
    by_cases h300 : pulled + 1 ≥ 300
    · have hk0 : k = 0 := by omega
      subst hk0
      simp [h300]
    · have hk1 : 300 - (pulled + 1) = k := by omega
      rw [if_neg h300, ih _ _ (by omega), hk1]
      simp only [List.append_assoc, List.singleton_append]
      congr 2
      omega

theorem length_sortRows (rows : List Row) : (sortRows rows).length = rows.length :=
  List.length_insertionSort _ rows

theorem collect_ok (paginator : Paginator) (posts : List Tweet)
    (h : paginator.items = posts.map Except.ok) :
    collect paginator =
      .ok ⟨(posts.take 300).map (mkRow (pushUsers [] paginator.first.users)),
           min 300 posts.length, (posts.drop 300).map Except.ok⟩ := by
  unfold collect
  simp only [h]
  rw [forAwait_ok _ posts [] 0 (by omega)]
  simp

/-- C4, the code at a search result of two pages: the author record of `bob` is attached to the
second page, the page of his tweet, yet the row of that tweet has no username, is not verified
and has 0 followers, because the author index is filled from the batch of the first page only;
so one verified account is counted where two posted. -/
theorem collect_second_page_author_ignored :
    (collectedRows twoPages).map authorFields =
        [("1", some "alice", true, 250000), ("2", none, false, 0)] ∧
      (fetchForCoin (fun _ _ => .ok twoPages) "2024-01-01T00:00:00.000Z" linkCoin).toOption.map
          (fun d => (d.mentions, d.unique_verified_accounts, d.unique_100kplus_accounts)) =
        some (2, 1, 1) := by
  decide

/-- C5: when the search succeeds and the stream delivers the posts `posts` without a fault,
`fetchForCoin` returns a result; the loop pulls `min 300 posts.length` posts and leaves the posts
after the 300th unread, the rows are built from the first `min 300 posts.length` posts in
delivery order, and `mentions` is the number of rows, `min 300 posts.length`. -/
theorem fetchForCoin_pulls_at_most_300 (search : String → String → Except String Paginator)
    (sinceISO : String) (coin : Coin) (paginator : Paginator) (posts : List Tweet)
    (hs : search (buildQuery coin.aliases) sinceISO = .ok paginator)
    (h : paginator.items = posts.map Except.ok) :
    ∃ c d, collect paginator = .ok c ∧ fetchForCoin search sinceISO coin = .ok d ∧
      c.pulled = min 300 posts.length ∧
      c.unread = (posts.drop 300).map Except.ok ∧
      c.rows = (posts.take (min 300 posts.length)).map
        (mkRow (pushUsers [] paginator.first.users)) ∧
      d.mentions = c.rows.length ∧
      d.mentions = min 300 posts.length := by
  have ht : posts.take (min 300 posts.length) = posts.take 300 := by
    rcases le_total 300 posts.length with h1 | h1
    · rw [Nat.min_eq_left h1]
    · rw [Nat.min_eq_right h1, List.take_of_length_le h1, List.take_of_length_le (le_refl _)]
  refine ⟨_, summarize coin (buildQuery coin.aliases) sinceISO
      ((posts.take 300).map (mkRow (pushUsers [] paginator.first.users))),
    collect_ok paginator posts h, ?_, rfl, rfl, ?_, ?_, ?_⟩
  · simp only [fetchForCoin, hs, collect_ok paginator posts h]
  · rw [ht]
  · simp [summarize, length_sortRows]
  · simp [summarize, length_sortRows]

set_option maxRecDepth 100000 in
/-- Witness of `fetchForCoin_pulls_at_most_300`: a stream of 301 posts. -/
theorem fetchForCoin_pulls_at_most_300_witness :
    longPage.items = (List.replicate 301 (tweetBy "101" "1" 7)).map Except.ok ∧
    ∃ c d, collect longPage = .ok c ∧
      fetchForCoin (fun _ _ => .ok longPage) "2024-01-01T00:00:00.000Z" linkCoin = .ok d ∧
      c.pulled = min 300 (List.replicate 301 (tweetBy "101" "1" 7)).length ∧
      c.unread = ((List.replicate 301 (tweetBy "101" "1" 7)).drop 300).map Except.ok ∧
      c.rows = ((List.replicate 301 (tweetBy "101" "1" 7)).take
          (min 300 (List.replicate 301 (tweetBy "101" "1" 7)).length)).map
        (mkRow (pushUsers [] longPage.first.users)) ∧
      d.mentions = c.rows.length ∧
      d.mentions = min 300 (List.replicate 301 (tweetBy "101" "1" 7)).length :=
  ⟨by simp [Paginator.items, longPage, laterItems],
   fetchForCoin_pulls_at_most_300 (fun _ _ => .ok longPage) "2024-01-01T00:00:00.000Z"
     linkCoin longPage _ rfl (by simp [Paginator.items, longPage, laterItems])⟩

/-! ## Properties of the aggregation -/

theorem foldl_engagements (rows : List Row) : ∀ s : Nat,
    rows.foldl (fun s r => s + r.like_count + r.retweet_count + r.reply_count + r.quote_count) s
      = s + (rows.map rowSum).sum := by
  induction rows with
  | nil => intro s; simp
  | cons r rs ih =>
    intro s
    simp only [List.foldl_cons, List.map_cons, List.sum_cons, ih, rowSum]
    omega

theorem engagements_eq_sum (rows : List Row) : engagements rows = (rows.map rowSum).sum := by
  unfold engagements
  rw [foldl_engagements]
  omega

/-- C6: `total_engagements` is the sum, over all the collected rows, of
`like_count + retweet_count + reply_count + quote_count`; and each count of a row is the count of
its tweet, or 0 when the count or `public_metrics` is missing. -/
theorem total_engagements_is_sum_over_all_rows (coin : Coin) (q sinceISO : String)
    (rows : List Row) (users : List (String × User)) (tweet : Tweet) :
    (summarize coin q sinceISO rows).total_engagements =
        (rows.map (fun r =>
          r.like_count + r.retweet_count + r.reply_count + r.quote_count)).sum ∧
      (mkRow users tweet).like_count =
        ((tweet.public_metrics.bind (fun pm => pm.like_count)).getD 0) ∧
      (mkRow users tweet).retweet_count =
        ((tweet.public_metrics.bind (fun pm => pm.retweet_count)).getD 0) ∧
      (mkRow users tweet).reply_count =
        ((tweet.public_metrics.bind (fun pm => pm.reply_count)).getD 0) ∧
      (mkRow users tweet).quote_count =
        ((tweet.public_metrics.bind (fun pm => pm.quote_count)).getD 0) := by
  have hz : ∀ o : Option Nat, orZero o = o.getD 0 := by
    intro o; cases o <;> rfl
  refine ⟨?_, hz _, hz _, hz _, hz _⟩
  show engagements rows = _
  rw [engagements_eq_sum]
  rfl

theorem newSet_foldl (xs : List String) : ∀ s : List String, s.Nodup →
    (xs.foldl (fun s x => if x ∈ s then s else s ++ [x]) s).Nodup ∧
    (xs.foldl (fun s x => if x ∈ s then s else s ++ [x]) s).toFinset =
      s.toFinset ∪ xs.toFinset := by
  induction xs with
  | nil => intro s hs; simp [hs]
  | cons x xs ih =>
    intro s hs
    simp only [List.foldl_cons]
    by_cases hx : x ∈ s
    · rw [if_pos hx]
      obtain ⟨h1, h2⟩ := ih s hs
      refine ⟨h1, ?_⟩
      rw [h2]
      ext a
      simp only [Finset.mem_union, List.mem_toFinset, List.mem_cons]
      constructor
      · rintro (h | h)
        · exact Or.inl h
        · exact Or.inr (Or.inr h)
      · rintro (h | h | h)
        · exact Or.inl h
        · exact Or.inl (h ▸ hx)
        · exact Or.inr h
    · rw [if_neg hx]
      have hs1 : (s ++ [x]).Nodup := by
        rw [List.nodup_append]
        refine ⟨hs, List.nodup_singleton x, ?_⟩
        intro a ha hb
        rw [List.mem_singleton] at hb
        exact hx (hb ▸ ha)
      obtain ⟨h1, h2⟩ := ih (s ++ [x]) hs1
      refine ⟨h1, ?_⟩
      rw [h2]
      ext a
      simp only [Finset.mem_union, List.mem_toFinset, List.mem_cons, List.mem_append,
        List.mem_singleton]
      tauto

theorem setSize_newSet (xs : List String) : setSize (newSet xs) = xs.toFinset.card := by
  obtain ⟨h1, h2⟩ := newSet_foldl xs [] List.nodup_nil
  unfold setSize newSet
  rw [← List.toFinset_card_of_nodup h1, h2]
  simp

theorem setSize_newSet_le (xs : List String) : setSize (newSet xs) ≤ xs.length := by
  rw [setSize_newSet]
  exact List.toFinset_card_le xs

/-- C7: `unique_verified_accounts` is the number of distinct author ids among the rows whose
author is verified, and `unique_100kplus_accounts` the number of distinct author ids among the
rows whose author has at least 100000 followers: a row with exactly 100000 followers counts, one
with 99999 does not, and an author with three qualifying rows is counted once. -/
theorem unique_accounts_count_distinct_author_ids (coin : Coin) (q sinceISO : String)
    (rows : List Row) :
    (summarize coin q sinceISO rows).unique_verified_accounts =
        ((rows.filter (fun r => r.author_verified)).map (fun r => r.author_id)).toFinset.card ∧
      (summarize coin q sinceISO rows).unique_100kplus_accounts =
        ((rows.filter (fun r => decide (100000 ≤ r.author_followers))).map
          (fun r => r.author_id)).toFinset.card ∧
      (summarize coin q sinceISO [sampleRow "1" "a" 1 100000 false]).unique_100kplus_accounts = 1 ∧
      (summarize coin q sinceISO [sampleRow "1" "a" 1 99999 false]).unique_100kplus_accounts = 0 ∧
      (summarize coin q sinceISO [sampleRow "1" "a" 1 100000 true, sampleRow "2" "a" 2 100000 true,
        sampleRow "3" "a" 3 100000 true]).unique_verified_accounts = 1 ∧
      (summarize coin q sinceISO [sampleRow "1" "a" 1 100000 true, sampleRow "2" "a" 2 100000 true,
        sampleRow "3" "a" 3 100000 true]).unique_100kplus_accounts = 1 := by
  refine ⟨setSize_newSet _, setSize_newSet _, ?_, ?_, ?_, ?_⟩
  · show setSize (over100k _) = 1
    decide
  · show setSize (over100k _) = 0
    decide
  · show setSize (uniqVerified _) = 1
    decide
  · show setSize (over100k _) = 1
    decide

/-- C8: `unique_verified_accounts` and `unique_100kplus_accounts` never exceed `mentions`. -/
theorem unique_accounts_le_mentions (coin : Coin) (q sinceISO : String) (rows : List Row) :
    (summarize coin q sinceISO rows).unique_verified_accounts ≤
        (summarize coin q sinceISO rows).mentions ∧
      (summarize coin q sinceISO rows).unique_100kplus_accounts ≤
        (summarize coin q sinceISO rows).mentions := by
  have hm : (summarize coin q sinceISO rows).mentions = rows.length := length_sortRows rows
  rw [hm]
  constructor
  · refine le_trans (setSize_newSet_le _) ?_
    rw [List.length_map]
    exact List.length_filter_le _ _
  · refine le_trans (setSize_newSet_le _) ?_
    rw [List.length_map]
    exact List.length_filter_le _ _

/-! ## Properties of the ranking -/

theorem rankedBefore_iff (a b : Row) : rankedBefore a b ↔ rowSum b ≤ rowSum a := by
  unfold rankedBefore compareRows; omega

theorem topTweets_pairwise (rows : List Row) :
    (topTweets rows).Pairwise (fun a b => b.engagement ≤ a.engagement) := by
  unfold topTweets
  rw [List.pairwise_map]
  have h : (sortRows rows).Pairwise rankedBefore := List.sorted_insertionSort rankedBefore rows
  refine (h.take (n := 15)).imp ?_
  intro a b hab
  exact (rankedBefore_iff a b).mp hab

/-- C9: the length of `top_tweets` is `min 15 mentions`. -/
theorem top_tweets_length (coin : Coin) (q sinceISO : String) (rows : List Row) :
    (summarize coin q sinceISO rows).top_tweets.length =
      min 15 (summarize coin q sinceISO rows).mentions := by
  show (topTweets rows).length = min 15 (sortRows rows).length
  unfold topTweets
  rw [List.length_map, List.length_take]

/-- C10: `top_tweets` is sorted by descending engagement: of two adjacent entries, the later
one has an engagement less than or equal to that of the earlier one. -/
theorem top_tweets_descending (coin : Coin) (q sinceISO : String) (rows : List Row) (i : Nat)
    (h : i + 1 < (summarize coin q sinceISO rows).top_tweets.length) :
    ((summarize coin q sinceISO rows).top_tweets[i + 1]).engagement ≤
      ((summarize coin q sinceISO rows).top_tweets[i]).engagement := by
  have hp : (summarize coin q sinceISO rows).top_tweets.Pairwise
      (fun a b => b.engagement ≤ a.engagement) := topTweets_pairwise rows
  rw [List.pairwise_iff_getElem] at hp
  exact hp i (i + 1) (by omega) h (by omega)

/-- Witness of `top_tweets_descending`: three rows arriving with engagements 10, 50, 50 are
ranked 50, 50, 10, and the second entry does not exceed the first. -/
theorem top_tweets_descending_witness :
    (summarize linkCoin "q" "s" threeRows).top_tweets.map (fun t => t.engagement) = [50, 50, 10] ∧
    0 + 1 < (summarize linkCoin "q" "s" threeRows).top_tweets.length ∧
    (((summarize linkCoin "q" "s" threeRows).top_tweets.map
        (fun t => t.engagement))[0 + 1]?).getD 0 ≤
      (((summarize linkCoin "q" "s" threeRows).top_tweets.map
        (fun t => t.engagement))[0]?).getD 0 :=
  ⟨by decide, by decide, top_tweets_descending linkCoin "q" "s" threeRows 0 (by decide)⟩

/-! ## Stability of the ranking -/

theorem sortRows_perm (rows : List Row) : (sortRows rows).Perm rows :=
  List.perm_insertionSort _ rows

theorem sortRows_filter_eq (rows : List Row) (e : Nat) :
    (sortRows rows).filter (fun r => decide (rowSum r = e)) =
      rows.filter (fun r => decide (rowSum r = e)) := by
  have hpw : (rows.filter (fun r => decide (rowSum r = e))).Pairwise rankedBefore := by
    apply List.pairwise_of_forall_mem_list
    intro a ha b hb
    have h1 := (List.mem_filter.mp ha).2
    have h2 := (List.mem_filter.mp hb).2
    simp only [decide_eq_true_eq] at h1 h2
    rw [rankedBefore_iff]
    omega
  have hsub : List.Sublist (rows.filter (fun r => decide (rowSum r = e))) (sortRows rows) :=
    List.sublist_insertionSort hpw (List.filter_sublist rows)
  have hsub2 := hsub.filter (fun r => decide (rowSum r = e))
  rw [List.filter_filter] at hsub2
  simp only [Bool.and_self] at hsub2
  have hlen := ((sortRows_perm rows).filter (fun r => decide (rowSum r = e))).length_eq
  exact (hsub2.eq_of_length hlen.symm).symm

theorem take_filter_eq_take (l : List Row) (p : Row → Bool) (n : Nat) :
    (l.take n).filter p = (l.filter p).take ((l.take n).filter p).length := by
  have h : l.filter p = (l.take n).filter p ++ (l.drop n).filter p := by
    rw [← List.filter_append, List.take_append_drop]
  rw [h, List.take_left]

theorem topTweets_filter (rows : List Row) (e : Nat) :
    (topTweets rows).filter (fun t => decide (t.engagement = e)) =
      (((sortRows rows).take 15).filter (fun r => decide (rowSum r = e))).map view := by
  unfold topTweets
  rw [List.filter_map]
  rfl

theorem topTweets_filter_take (rows : List Row) (e : Nat) :
    ∃ k, (topTweets rows).filter (fun t => decide (t.engagement = e)) =
      ((rows.filter (fun r => decide (rowSum r = e))).take k).map view := by
  refine ⟨(((sortRows rows).take 15).filter (fun r => decide (rowSum r = e))).length, ?_⟩
  have h1 := take_filter_eq_take (sortRows rows) (fun r => decide (rowSum r = e)) 15
  rw [sortRows_filter_eq] at h1
  rw [topTweets_filter, ← h1]

/-- C11: the ranking is stable. For every engagement value `e`, the entries of `top_tweets` with
engagement `e` are, in order, the projections of the first rows with engagement `e` in arrival
order; so two entries with equal engagement stand in the arrival order of their rows. Three rows
arriving with engagements 10, 50, 50 are ranked row 2, row 3, row 1. -/
theorem top_tweets_stable (coin : Coin) (q sinceISO : String) (rows : List Row) (e : Nat) :
    (∃ k, (summarize coin q sinceISO rows).top_tweets.filter
          (fun t => decide (t.engagement = e)) =
        ((rows.filter (fun r =>
          decide (r.like_count + r.retweet_count + r.reply_count + r.quote_count = e))).take
            k).map view) ∧
      (summarize coin q sinceISO threeRows).top_tweets.map (fun t => (t.id, t.engagement)) =
        [("2", 50), ("3", 50), ("1", 10)] := by
  refine ⟨topTweets_filter_take rows e, ?_⟩
  show (topTweets threeRows).map _ = _
  decide

/-! ## Entries of the ranking -/

theorem mem_topTweets (rows : List Row) (t : TopTweet) (h : t ∈ topTweets rows) :
    ∃ r, r ∈ (sortRows rows).take 15 ∧ view r = t := by
  unfold topTweets at h
  exact List.mem_map.mp h

theorem mem_of_mem_take_sortRows (rows : List Row) (r : Row) (n : Nat)
    (h : r ∈ (sortRows rows).take n) : r ∈ rows :=
  (sortRows_perm rows).mem_iff.mp (List.mem_of_mem_take h)

/-- C14: every entry of `top_tweets` is the projection of a collected row; its url is
`https://twitter.com/` + username + `/status/` + id when the username of the row is present and
not empty, and the fallback `https://twitter.com/i/web/status/` + id, built from the id alone,
when the username is missing or empty. -/
theorem top_tweets_url (coin : Coin) (q sinceISO : String) (rows : List Row) (t : TopTweet)
    (h : t ∈ (summarize coin q sinceISO rows).top_tweets) :
    ∃ r, r ∈ rows ∧ t = view r ∧ t.id = r.id ∧
      (∀ name, r.author_username = some name → name ≠ "" →
        t.url = "https://twitter.com/" ++ name ++ "/status/" ++ r.id) ∧
      ((r.author_username = none ∨ r.author_username = some "") →
        t.url = "https://twitter.com/i/web/status/" ++ r.id) := by
  obtain ⟨r, hr, hv⟩ := mem_topTweets rows t h
  subst hv
  refine ⟨r, mem_of_mem_take_sortRows rows r 15 hr, rfl, rfl, ?_, ?_⟩
  · intro name hn hne
    simp [view, hn, hne]
  · intro hn
    rcases hn with hn | hn <;> simp [view, hn]

/-- Witness of `top_tweets_url`: a row of `alice` and a row without a username. -/
theorem top_tweets_url_witness :
    (summarize linkCoin "q" "s" mixedRows).top_tweets.map (fun t => t.url) =
        ["https://twitter.com/alice/status/7", "https://twitter.com/i/web/status/8"] ∧
      view (namedRow "7" "1" "alice" 3) ∈ (summarize linkCoin "q" "s" mixedRows).top_tweets ∧
      ∃ r, r ∈ mixedRows ∧ view (namedRow "7" "1" "alice" 3) = view r ∧
        (view (namedRow "7" "1" "alice" 3)).id = r.id ∧
        (∀ name, r.author_username = some name → name ≠ "" →
          (view (namedRow "7" "1" "alice" 3)).url =
            "https://twitter.com/" ++ name ++ "/status/" ++ r.id) ∧
        ((r.author_username = none ∨ r.author_username = some "") →
          (view (namedRow "7" "1" "alice" 3)).url = "https://twitter.com/i/web/status/" ++ r.id) :=
  ⟨by decide, by decide,
    top_tweets_url linkCoin "q" "s" mixedRows (view (namedRow "7" "1" "alice" 3)) (by decide)⟩

/-- C15: one engagement formula everywhere. The engagement of every entry of `top_tweets` is
`like_count + retweet_count + reply_count + quote_count` of its source row, the comparator of the
ranking is the difference of that same value for its two rows, and `total_engagements` is the sum
of that same value over the rows. -/
theorem engagement_formula_consistent (coin : Coin) (q sinceISO : String) (rows : List Row) :
    (summarize coin q sinceISO rows).top_tweets.map (fun t => t.engagement) =
        ((sortRows rows).take 15).map
          (fun r => r.like_count + r.retweet_count + r.reply_count + r.quote_count) ∧
      (∀ r : Row, (view r).engagement =
        r.like_count + r.retweet_count + r.reply_count + r.quote_count) ∧
      (∀ a b : Row, compareRows a b =
        ((b.like_count + b.retweet_count + b.reply_count + b.quote_count : Nat) : Int) -
          ((a.like_count + a.retweet_count + a.reply_count + a.quote_count : Nat) : Int)) ∧
      (∀ a b : Row, compareRows a b =
        ((view b).engagement : Int) - ((view a).engagement : Int)) ∧
      (summarize coin q sinceISO rows).total_engagements =
        (rows.map (fun r => (view r).engagement)).sum := by
  refine ⟨?_, fun _ => rfl, fun _ _ => rfl, fun _ _ => rfl, ?_⟩
  · show (topTweets rows).map _ = _
    unfold topTweets
    rw [List.map_map]
    rfl
  · show engagements rows = _
    rw [engagements_eq_sum]
    rfl

/-- C19: `top_tweets` holds the rows of highest engagement. The collected rows split into the
rows projected into `top_tweets`, entry by entry, and the remaining rows, and every remaining row
has an engagement at most that of every entry; in particular this holds for every collected row
whose projection is not in `top_tweets`. -/
theorem top_tweets_highest (coin : Coin) (q sinceISO : String) (rows : List Row) :
    (∃ top rest : List Row, (top ++ rest).Perm rows ∧
        (summarize coin q sinceISO rows).top_tweets = top.map view ∧
        ∀ t ∈ (summarize coin q sinceISO rows).top_tweets, ∀ r ∈ rest,
          (view r).engagement ≤ t.engagement) ∧
      (∀ r ∈ rows, view r ∉ (summarize coin q sinceISO rows).top_tweets →
        ∀ t ∈ (summarize coin q sinceISO rows).top_tweets,
          (view r).engagement ≤ t.engagement) := by
  have hsorted : (sortRows rows).Sorted rankedBefore := List.sorted_insertionSort rankedBefore rows
  have key : ∀ t ∈ topTweets rows, ∀ r ∈ (sortRows rows).drop 15,
      (view r).engagement ≤ t.engagement := by
    intro t ht r hr
    obtain ⟨a, ha, hv⟩ := mem_topTweets rows t ht
    subst hv
    exact (rankedBefore_iff a r).mp (hsorted.rel_of_mem_take_of_mem_drop ha hr)
  refine ⟨⟨(sortRows rows).take 15, (sortRows rows).drop 15, ?_, rfl, key⟩, ?_⟩
  · rw [List.take_append_drop]
    exact sortRows_perm rows
  · intro r hr hnot t ht
    have hmem : r ∈ (sortRows rows).take 15 ++ (sortRows rows).drop 15 := by
      rw [List.take_append_drop]
      exact (sortRows_perm rows).mem_iff.mpr hr
    rcases List.mem_append.mp hmem with h1 | h1
    · exact absurd (List.mem_map_of_mem view h1) hnot
    · exact key t ht r h1

/-- Witness of `top_tweets_highest`: of sixteen rows with engagements 0 to 15, the row of
engagement 0 is left out and does not exceed the entry of engagement 1. -/
theorem top_tweets_highest_witness :
    sampleRow "1" "a" 0 0 false ∈ sixteenRows ∧
      view (sampleRow "1" "a" 0 0 false) ∉ (summarize linkCoin "q" "s" sixteenRows).top_tweets ∧
      view (sampleRow "1" "a" 1 0 false) ∈ (summarize linkCoin "q" "s" sixteenRows).top_tweets ∧
      (view (sampleRow "1" "a" 0 0 false)).engagement ≤
        (view (sampleRow "1" "a" 1 0 false)).engagement :=
  ⟨by decide, by decide, by decide,
    (top_tweets_highest linkCoin "q" "s" sixteenRows).2 _ (by decide) (by decide) _ (by decide)⟩

/-! ## Invariance of the aggregates -/

theorem summarize_mentions (coin : Coin) (q sinceISO : String) (rows : List Row) :
    (summarize coin q sinceISO rows).mentions = rows.length :=
  length_sortRows rows

theorem summarize_verified (coin : Coin) (q sinceISO : String) (rows : List Row) :
    (summarize coin q sinceISO rows).unique_verified_accounts =
      ((rows.filter (fun r => r.author_verified)).map (fun r => r.author_id)).toFinset.card :=
  setSize_newSet _

theorem summarize_over100k (coin : Coin) (q sinceISO : String) (rows : List Row) :
    (summarize coin q sinceISO rows).unique_100kplus_accounts =
      ((rows.filter (fun r => decide (r.author_followers ≥ 100000))).map
        (fun r => r.author_id)).toFinset.card :=
  setSize_newSet _

theorem summarize_total (coin : Coin) (q sinceISO : String) (rows : List Row) :
    (summarize coin q sinceISO rows).total_engagements = (rows.map rowSum).sum :=
  engagements_eq_sum rows

theorem aggregates_of_perm (coin : Coin) (q sinceISO : String) (rows rows2 : List Row)
    (h : rows2.Perm rows) :
    (summarize coin q sinceISO rows2).mentions = (summarize coin q sinceISO rows).mentions ∧
      (summarize coin q sinceISO rows2).unique_verified_accounts =
        (summarize coin q sinceISO rows).unique_verified_accounts ∧
      (summarize coin q sinceISO rows2).unique_100kplus_accounts =
        (summarize coin q sinceISO rows).unique_100kplus_accounts ∧
      (summarize coin q sinceISO rows2).total_engagements =
        (summarize coin q sinceISO rows).total_engagements := by
  refine ⟨?_, ?_, ?_, ?_⟩
  · rw [summarize_mentions, summarize_mentions]
    exact h.length_eq
  · rw [summarize_verified, summarize_verified]
    exact congrArg Finset.card (List.toFinset_eq_of_perm _ _ ((h.filter _).map _))
  · rw [summarize_over100k, summarize_over100k]
    exact congrArg Finset.card (List.toFinset_eq_of_perm _ _ ((h.filter _).map _))
  · rw [summarize_total, summarize_total]
    exact (h.map rowSum).sum_eq

/-- C16: the aggregates do not depend on the order of the rows. For every permutation `rows2` of
`rows`, and in particular for the order left by the sort of the ranking, `mentions`,
`unique_verified_accounts`, `unique_100kplus_accounts` and `total_engagements` computed from
the permuted rows equal those computed from `rows`. -/
theorem aggregates_invariant_under_permutation (coin : Coin) (q sinceISO : String)
    (rows rows2 : List Row) (h : rows2.Perm rows) :
    ((summarize coin q sinceISO rows2).mentions = (summarize coin q sinceISO rows).mentions ∧
      (summarize coin q sinceISO rows2).unique_verified_accounts =
        (summarize coin q sinceISO rows).unique_verified_accounts ∧
      (summarize coin q sinceISO rows2).unique_100kplus_accounts =
        (summarize coin q sinceISO rows).unique_100kplus_accounts ∧
      (summarize coin q sinceISO rows2).total_engagements =
        (summarize coin q sinceISO rows).total_engagements) ∧
    ((summarize coin q sinceISO (sortRows rows)).mentions =
        (summarize coin q sinceISO rows).mentions ∧
      (summarize coin q sinceISO (sortRows rows)).unique_verified_accounts =
        (summarize coin q sinceISO rows).unique_verified_accounts ∧
      (summarize coin q sinceISO (sortRows rows)).unique_100kplus_accounts =
        (summarize coin q sinceISO rows).unique_100kplus_accounts ∧
      (summarize coin q sinceISO (sortRows rows)).total_engagements =
        (summarize coin q sinceISO rows).total_engagements) :=
  ⟨aggregates_of_perm coin q sinceISO rows rows2 h,
    aggregates_of_perm coin q sinceISO rows (sortRows rows) (sortRows_perm rows)⟩

/-- Witness of `aggregates_invariant_under_permutation`: three rows and their reversal. -/
theorem aggregates_invariant_under_permutation_witness :
    threeRows.reverse.Perm threeRows ∧
      (summarize linkCoin "q" "s" threeRows.reverse).mentions =
        (summarize linkCoin "q" "s" threeRows).mentions ∧
      (summarize linkCoin "q" "s" threeRows.reverse).total_engagements =
        (summarize linkCoin "q" "s" threeRows).total_engagements :=
  ⟨List.reverse_perm threeRows,
    (aggregates_invariant_under_permutation linkCoin "q" "s" threeRows threeRows.reverse
      (List.reverse_perm threeRows)).1.1,
    (aggregates_invariant_under_permutation linkCoin "q" "s" threeRows threeRows.reverse
      (List.reverse_perm threeRows)).1.2.2.2⟩

/-! ## Properties of the author index -/

theorem mapGet_mapSet (m : List (String × User)) (k : String) (v : User) (k2 : String) :
    mapGet (mapSet m k v) k2 = if k = k2 then some v else mapGet m k2 := by
  induction m with
  | nil => simp [mapSet, mapGet]
  | cons p m ih =>
    obtain ⟨k1, v1⟩ := p
    by_cases h1 : k1 = k
    · subst h1
      by_cases h2 : k1 = k2 <;> simp [mapSet, mapGet, h2]
    · by_cases h2 : k1 = k2
      · subst h2
        have h3 : ¬ k = k1 := fun h => h1 h.symm
        simp [mapSet, mapGet, h1, h3]
      · simp [mapSet, mapGet, h1, h2, ih]

theorem mapGet_foldl (us : List User) (k : String) : ∀ m : List (String × User),
    mapGet (us.foldl (fun m u => mapSet m u.id u) m) k =
      (us.reverse.find? (fun u => decide (u.id = k))).or (mapGet m k) := by
  induction us with
  | nil => intro m; simp
  | cons u us ih =>
    intro m
    rw [List.foldl_cons, ih, mapGet_mapSet, List.reverse_cons, List.find?_append]
    cases us.reverse.find? (fun u => decide (u.id = k)) with
    | some w => simp
    | none =>
      by_cases h : u.id = k <;> simp [List.find?, h]

theorem keys_mapSet (m : List (String × User)) (k : String) (v : User) :
    (mapSet m k v).map Prod.fst =
      if k ∈ m.map Prod.fst then m.map Prod.fst else m.map Prod.fst ++ [k] := by
  induction m with
  | nil => simp [mapSet]
  | cons p m ih =>
    obtain ⟨k1, v1⟩ := p
    by_cases h1 : k1 = k
    · subst h1
      simp [mapSet]
    · have h3 : ¬ k = k1 := fun h => h1 h.symm
      simp only [mapSet, if_neg h1, List.map_cons, ih, List.mem_cons, h3, false_or]
      split <;> simp

theorem keys_nodup_mapSet (m : List (String × User)) (k : String) (v : User)
    (h : (m.map Prod.fst).Nodup) : ((mapSet m k v).map Prod.fst).Nodup := by
  rw [keys_mapSet]
  split
  · exact h
  · rename_i hk
    rw [List.nodup_append]
    refine ⟨h, List.nodup_singleton k, ?_⟩
    intro a ha hb
    rw [List.mem_singleton] at hb
    exact hk (hb ▸ ha)

theorem keys_nodup_foldl (us : List User) : ∀ m : List (String × User),
    (m.map Prod.fst).Nodup →
      ((us.foldl (fun m u => mapSet m u.id u) m).map Prod.fst).Nodup := by
  induction us with
  | nil => intro m h; exact h
  | cons u us ih =>
    intro m h
    exact ih _ (keys_nodup_mapSet m u.id u h)

/-- C17: the author index is a mapping with unique keys and last write wins. After ingesting
the records `authors` into an empty index, the lookup of an id returns the last record of
`authors` with that id, and is absent exactly when no record of `authors` has that id; the keys
of the index are pairwise distinct; ingesting into an index that already has entries overwrites
the entries of the ingested ids and keeps the others; a missing batch changes nothing. Of two
records for the id of `alice`, the later one is found. -/
theorem author_index_last_write_wins (index : List (String × User)) (authors : List User)
    (k : String) :
    mapGet (pushUsers [] (some authors)) k =
        authors.reverse.find? (fun u => decide (u.id = k)) ∧
      (mapGet (pushUsers [] (some authors)) k = none ↔ ∀ u ∈ authors, u.id ≠ k) ∧
      ((pushUsers [] (some authors)).map Prod.fst).Nodup ∧
      mapGet (pushUsers index (some authors)) k =
        (authors.reverse.find? (fun u => decide (u.id = k))).or (mapGet index k) ∧
      pushUsers index none = index ∧
      mapGet (pushUsers [] (some [alice, bob, aliceRenamed])) "1" = some aliceRenamed := by
  have h1 : mapGet (pushUsers [] (some authors)) k =
      authors.reverse.find? (fun u => decide (u.id = k)) := by
    unfold pushUsers
    rw [Option.getD_some, mapGet_foldl]
    simp [mapGet]
  refine ⟨h1, ?_, ?_, ?_, rfl, by decide⟩
  · rw [h1, List.find?_eq_none]
    simp
  · exact keys_nodup_foldl authors [] List.nodup_nil
  · unfold pushUsers
    rw [Option.getD_some, mapGet_foldl]

/-! ## Posts of unknown authors -/

theorem mkRow_unknown (users : List (String × User)) (tweet : Tweet)
    (h : mapGet users tweet.author_id = none) :
    (mkRow users tweet).author_username = none ∧
      (mkRow users tweet).author_verified = false ∧
      (mkRow users tweet).author_followers = 0 := by
  simp [mkRow, h, truthyBool, orZero]

/-- C18: a post whose author id is not in the author index when the post is resolved gets a row
with the id and author id of the post, no username, `author_verified = false` and
`author_followers = 0`. Wherever that row stands among the collected rows, it adds 1 to
`mentions` and the engagement of the post (its like, retweet, reply and quote counts, a missing
one taken as 0) to `total_engagements`, leaves `unique_verified_accounts` and
`unique_100kplus_accounts` as they are without it, and its url in `top_tweets` is the fallback
form. -/
theorem unknown_author_row_defaults (users : List (String × User)) (tweet : Tweet)
    (coin : Coin) (q sinceISO : String) (before after : List Row)
    (h : mapGet users tweet.author_id = none) :
    (mkRow users tweet).id = tweet.id ∧
      (mkRow users tweet).author_id = tweet.author_id ∧
      (mkRow users tweet).author_username = none ∧
      (mkRow users tweet).author_verified = false ∧
      (mkRow users tweet).author_followers = 0 ∧
      (view (mkRow users tweet)).url = "https://twitter.com/i/web/status/" ++ tweet.id ∧
      (summarize coin q sinceISO (before ++ mkRow users tweet :: after)).mentions =
        (summarize coin q sinceISO (before ++ after)).mentions + 1 ∧
      (summarize coin q sinceISO (before ++ mkRow users tweet :: after)).total_engagements =
        (summarize coin q sinceISO (before ++ after)).total_engagements +
          ((tweet.public_metrics.bind (fun pm => pm.like_count)).getD 0 +
            (tweet.public_metrics.bind (fun pm => pm.retweet_count)).getD 0 +
            (tweet.public_metrics.bind (fun pm => pm.reply_count)).getD 0 +
            (tweet.public_metrics.bind (fun pm => pm.quote_count)).getD 0) ∧
      (summarize coin q sinceISO (before ++ mkRow users tweet :: after)).unique_verified_accounts =
        (summarize coin q sinceISO (before ++ after)).unique_verified_accounts ∧
      (summarize coin q sinceISO (before ++ mkRow users tweet :: after)).unique_100kplus_accounts =
        (summarize coin q sinceISO (before ++ after)).unique_100kplus_accounts := by
  obtain ⟨h1, h2, h3⟩ := mkRow_unknown users tweet h
  refine ⟨rfl, rfl, h1, h2, h3, ?_, ?_, ?_, ?_, ?_⟩
  · simp only [view, h1]
    rfl
  · rw [summarize_mentions, summarize_mentions]
    simp only [List.length_append, List.length_cons]
    omega
  · have hz : ∀ o : Option Nat, orZero o = o.getD 0 := by
      intro o; cases o <;> rfl
    have hsum : rowSum (mkRow users tweet) =
        (tweet.public_metrics.bind (fun pm => pm.like_count)).getD 0 +
          (tweet.public_metrics.bind (fun pm => pm.retweet_count)).getD 0 +
          (tweet.public_metrics.bind (fun pm => pm.reply_count)).getD 0 +
          (tweet.public_metrics.bind (fun pm => pm.quote_count)).getD 0 := by
      simp only [rowSum, mkRow, hz]
    rw [summarize_total, summarize_total]
    simp only [List.map_append, List.map_cons, List.sum_append, List.sum_cons, hsum]
    omega
  · rw [summarize_verified, summarize_verified]
    simp [List.filter_append, List.filter_cons, h2]
  · rw [summarize_over100k, summarize_over100k]
    simp [List.filter_append, List.filter_cons, h3]

/-- Witness of `unknown_author_row_defaults`: the index holds `alice` only; after her post with
7 likes comes a post with 9 likes by the author id `2`. The second row has no author data, and
it raises `mentions` from 1 to 2 and `total_engagements` from 7 to 16 while both counts of
unique accounts stay at 1. -/
theorem unknown_author_row_defaults_witness :
    mapGet (pushUsers [] (some [alice])) (tweetBy "102" "2" 9).author_id = none ∧
      (summarize linkCoin "q" "s" [mkRow (pushUsers [] (some [alice])) (tweetBy "101" "1" 7)] =
        { symbol := "LINK", query := "q", window_start := "s", mentions := 1,
          unique_verified_accounts := 1, unique_100kplus_accounts := 1, total_engagements := 7,
          top_tweets := [view (mkRow (pushUsers [] (some [alice])) (tweetBy "101" "1" 7))] }) ∧
      ((summarize linkCoin "q" "s" [mkRow (pushUsers [] (some [alice])) (tweetBy "101" "1" 7),
          mkRow (pushUsers [] (some [alice])) (tweetBy "102" "2" 9)]).mentions = 2 ∧
        (summarize linkCoin "q" "s" [mkRow (pushUsers [] (some [alice])) (tweetBy "101" "1" 7),
          mkRow (pushUsers [] (some [alice])) (tweetBy "102" "2" 9)]).total_engagements = 16 ∧
        (summarize linkCoin "q" "s" [mkRow (pushUsers [] (some [alice])) (tweetBy "101" "1" 7),
          mkRow (pushUsers [] (some [alice])) (tweetBy "102" "2" 9)]).unique_verified_accounts
            = 1 ∧
        (summarize linkCoin "q" "s" [mkRow (pushUsers [] (some [alice])) (tweetBy "101" "1" 7),
          mkRow (pushUsers [] (some [alice])) (tweetBy "102" "2" 9)]).unique_100kplus_accounts
            = 1) ∧
      ((mkRow (pushUsers [] (some [alice])) (tweetBy "102" "2" 9)).id = "102" ∧
        (mkRow (pushUsers [] (some [alice])) (tweetBy "102" "2" 9)).author_id = "2" ∧
        (mkRow (pushUsers [] (some [alice])) (tweetBy "102" "2" 9)).author_username = none ∧
        (mkRow (pushUsers [] (some [alice])) (tweetBy "102" "2" 9)).author_verified = false ∧
        (mkRow (pushUsers [] (some [alice])) (tweetBy "102" "2" 9)).author_followers = 0 ∧
        (view (mkRow (pushUsers [] (some [alice])) (tweetBy "102" "2" 9))).url =
          "https://twitter.com/i/web/status/" ++ "102" ∧
        (summarize linkCoin "q" "s"
            ([mkRow (pushUsers [] (some [alice])) (tweetBy "101" "1" 7)] ++
              mkRow (pushUsers [] (some [alice])) (tweetBy "102" "2" 9) :: [])).mentions =
          (summarize linkCoin "q" "s"
            ([mkRow (pushUsers [] (some [alice])) (tweetBy "101" "1" 7)] ++ [])).mentions + 1 ∧
        (summarize linkCoin "q" "s"
            ([mkRow (pushUsers [] (some [alice])) (tweetBy "101" "1" 7)] ++
              mkRow (pushUsers [] (some [alice])) (tweetBy "102" "2" 9) :: [])).total_engagements =
          (summarize linkCoin "q" "s"
            ([mkRow (pushUsers [] (some [alice])) (tweetBy "101" "1" 7)] ++
              [])).total_engagements + (9 + 0 + 0 + 0) ∧
        (summarize linkCoin "q" "s"
            ([mkRow (pushUsers [] (some [alice])) (tweetBy "101" "1" 7)] ++
              mkRow (pushUsers [] (some [alice])) (tweetBy "102" "2" 9) ::
                [])).unique_verified_accounts =
          (summarize linkCoin "q" "s"
            ([mkRow (pushUsers [] (some [alice])) (tweetBy "101" "1" 7)] ++
              [])).unique_verified_accounts ∧
        (summarize linkCoin "q" "s"
            ([mkRow (pushUsers [] (some [alice])) (tweetBy "101" "1" 7)] ++
              mkRow (pushUsers [] (some [alice])) (tweetBy "102" "2" 9) ::
                [])).unique_100kplus_accounts =
          (summarize linkCoin "q" "s"
            ([mkRow (pushUsers [] (some [alice])) (tweetBy "101" "1" 7)] ++
              [])).unique_100kplus_accounts) :=
  ⟨by decide, by decide, by decide,
    unknown_author_row_defaults (pushUsers [] (some [alice])) (tweetBy "102" "2" 9)
      linkCoin "q" "s" [mkRow (pushUsers [] (some [alice])) (tweetBy "101" "1" 7)] []
      (by decide)⟩

/-! ## Properties of the report -/

theorem runCoins_eq (world : Nat → String → String → Except String Paginator)
    (sinceISO : String) : ∀ (coins : List Coin) (i : Nat) (out : List CoinEntry),
    runCoins world sinceISO coins i out =
      out ++ (coins.enumFrom i).map (fun p => entryFor (world p.1) sinceISO p.2) := by
  intro coins
  induction coins with
  | nil => intro i out; simp [runCoins]
  | cons c cs ih =>
    intro i out
    unfold runCoins
    cases hf : fetchForCoin (world i) sinceISO c with
    | ok d => simp [ih, entryFor, hf]
    | error e => simp [ih, entryFor, hf]

theorem runCoins_entry_at (world : Nat → String → String → Except String Paginator)
    (sinceISO : String) (coins : List Coin) (j : Nat) :
    (runCoins world sinceISO coins 0 [])[j]? =
      (coins[j]?).map (fun c => entryFor (world j) sinceISO c) := by
  rw [runCoins_eq, List.nil_append, List.getElem?_map, List.getElem?_enumFrom]
  cases coins[j]? <;> simp

theorem entryFor_symbol (search : String → String → Except String Paginator)
    (sinceISO : String) (c : Coin) : (entryFor search sinceISO c).symbol = c.symbol := by
  unfold entryFor
  cases hf : fetchForCoin search sinceISO c with
  | error e => rfl
  | ok d =>
    show d.symbol = c.symbol
    unfold fetchForCoin at hf
    simp only at hf
    split at hf
    · cases hf
    · split at hf
      · cases hf
      · cases hf
        rfl

/-- C12: the report has exactly one entry per configured ticker, in configuration order: the
entry of index `j` is the entry of the ticker of index `j` and carries its symbol. The entry of a
ticker depends on its own fetch only: when two runs differ in what the search API does for
ticker `i` (a fault in one, none in the other), the entries of every other ticker are equal. -/
theorem coins_one_entry_per_ticker (world world2 : Nat → String → String → Except String Paginator)
    (sinceISO : String) (coins : List Coin) (i : Nat)
    (h : ∀ j, j ≠ i → world2 j = world j) :
    (runCoins world sinceISO coins 0 []).length = coins.length ∧
      (runCoins world sinceISO coins 0 []).map CoinEntry.symbol = coins.map (fun c => c.symbol) ∧
      (∀ j, (runCoins world sinceISO coins 0 [])[j]? =
        (coins[j]?).map (fun c => entryFor (world j) sinceISO c)) ∧
      (∀ j, j ≠ i →
        (runCoins world2 sinceISO coins 0 [])[j]? = (runCoins world sinceISO coins 0 [])[j]?) := by
  refine ⟨?_, ?_, runCoins_entry_at world sinceISO coins, ?_⟩
  · rw [runCoins_eq]
    simp
  · apply List.ext_getElem?
    intro j
    rw [List.getElem?_map, runCoins_entry_at, List.getElem?_map]
    cases coins[j]? with
    | none => rfl
    | some c => simp [entryFor_symbol]
  · intro j hj
    rw [runCoins_entry_at, runCoins_entry_at, h j hj]

/-- Witness of `coins_one_entry_per_ticker`: the fetch of `LINK` raises a fault, the entry of
`IP` is what it is without that fault. -/
theorem coins_one_entry_per_ticker_witness :
    (∀ j, j ≠ 0 → firstFaultySearch j = healthySearch j) ∧
      (runCoins firstFaultySearch "s" [linkCoin, ipCoin] 0 []).map CoinEntry.symbol =
        ["LINK", "IP"] ∧
      (runCoins firstFaultySearch "s" [linkCoin, ipCoin] 0 [])[0]? =
        some (.failed "LINK" "Error: rate limit") ∧
      (runCoins firstFaultySearch "s" [linkCoin, ipCoin] 0 [])[1]? =
        (runCoins healthySearch "s" [linkCoin, ipCoin] 0 [])[1]? :=
  ⟨fun _ hj => if_neg hj,
    (coins_one_entry_per_ticker firstFaultySearch firstFaultySearch "s" [linkCoin, ipCoin] 0
      (fun _ _ => rfl)).2.1,
    by decide,
    (coins_one_entry_per_ticker healthySearch firstFaultySearch "s" [linkCoin, ipCoin] 0
      (fun _ hj => if_neg hj)).2.2.2 1 (by decide)⟩

/-! ## Faults of the paginator -/

theorem forAwait_fault (users : List (String × User)) :
    ∀ (posts : List Tweet) (rows : List Row) (pulled : Nat) (e : String)
      (rest : List (Except String Tweet)), pulled + posts.length < 300 →
      forAwait users (posts.map Except.ok ++ Except.error e :: rest) rows pulled = .error e := by
  intro posts
  induction posts with
  | nil => intro rows pulled e rest _; simp [forAwait]
  | cons t ts ih =>
    intro rows pulled e rest hp
    simp only [List.length_cons] at hp
    have h300 : ¬ pulled + 1 ≥ 300 := by omega
    simp only [List.map_cons, List.cons_append, forAwait, if_neg h300]
    exact ih _ _ e rest (by omega)

theorem forAwait_full (users : List (String × User)) :
    ∀ (posts : List Tweet) (rows : List Row) (pulled : Nat)
      (tail : List (Except String Tweet)), pulled < 300 → 300 - pulled ≤ posts.length →
      forAwait users (posts.map Except.ok ++ tail) rows pulled =
        .ok ⟨rows ++ (posts.take (300 - pulled)).map (mkRow users), 300,
             (posts.drop (300 - pulled)).map Except.ok ++ tail⟩ := by
  intro posts
  induction posts with
  | nil => intro rows pulled tail h1 h2; simp at h2; omega
  | cons t ts ih =>
    intro rows pulled tail h1 h2
    simp only [List.length_cons] at h2
    obtain ⟨k, hk⟩ : ∃ k, 300 - pulled = k + 1 := ⟨299 - pulled, by omega⟩
    rw [hk]
    simp only [List.map_cons, List.cons_append, forAwait, List.take_succ_cons,
      List.drop_succ_cons]
    by_cases h300 : pulled + 1 ≥ 300
    · have hk0 : k = 0 := by omega
      have hp : pulled + 1 = 300 := by omega
      subst hk0
      simp [h300, hp]
    · have hk1 : 300 - (pulled + 1) = k := by omega
      have hrec := ih (rows ++ [mkRow users t]) (pulled + 1) tail (by omega) (by omega)
      rw [hk1] at hrec
      rw [if_neg h300]
      show forAwait users (ts.map Except.ok ++ tail) _ _ = _
      rw [hrec]
      simp

theorem collect_fault (paginator : Paginator) (posts : List Tweet) (e : String)
    (rest : List (Except String Tweet))
    (hi : paginator.items = posts.map Except.ok ++ Except.error e :: rest)
    (hk : posts.length < 300) : collect paginator = .error e := by
  unfold collect
  simp only [hi]
  exact forAwait_fault _ posts [] 0 e rest (by omega)

theorem collect_full (paginator : Paginator) (posts : List Tweet)
    (tail : List (Except String Tweet))
    (hi : paginator.items = posts.map Except.ok ++ tail) (hk : 300 ≤ posts.length) :
    collect paginator =
      .ok ⟨(posts.take 300).map (mkRow (pushUsers [] paginator.first.users)), 300,
           (posts.drop 300).map Except.ok ++ tail⟩ := by
  unfold collect
  simp only [hi]
  rw [forAwait_full _ posts [] 0 tail (by omega) (by omega)]
  simp

/-- C13: when the initial search raises a fault, or the paginator raises one after fewer than
300 posts were consumed, the entry of the ticker is `{ symbol, error }` with the symbol of the
ticker and the fault, and holds nothing computed from the rows consumed so far. When the fault
would come after 300 posts, the entry is the data computed from the first 300 posts, which is
what `fetchForCoin` returns for the same posts delivered without a fault. -/
theorem fault_gives_error_entry (world : Nat → String → String → Except String Paginator)
    (sinceISO : String) (coins : List Coin) (j : Nat) (coin : Coin) (e : String)
    (hc : coins[j]? = some coin) :
    (world j (buildQuery coin.aliases) sinceISO = .error e →
        (runCoins world sinceISO coins 0 [])[j]? = some (.failed coin.symbol e)) ∧
      (∀ (paginator : Paginator) (posts : List Tweet) (rest : List (Except String Tweet)),
        world j (buildQuery coin.aliases) sinceISO = .ok paginator →
        paginator.items = posts.map Except.ok ++ Except.error e :: rest →
        posts.length < 300 →
        (runCoins world sinceISO coins 0 [])[j]? = some (.failed coin.symbol e)) ∧
      (∀ (paginator : Paginator) (posts : List Tweet) (rest : List (Except String Tweet)),
        world j (buildQuery coin.aliases) sinceISO = .ok paginator →
        paginator.items = posts.map Except.ok ++ Except.error e :: rest →
        300 ≤ posts.length →
        (runCoins world sinceISO coins 0 [])[j]? =
            some (.data (summarize coin (buildQuery coin.aliases) sinceISO
              ((posts.take 300).map (mkRow (pushUsers [] paginator.first.users))))) ∧
          ∀ sound : Paginator, sound.first.users = paginator.first.users →
            sound.items = posts.map Except.ok →
            fetchForCoin (fun _ _ => .ok sound) sinceISO coin =
              .ok (summarize coin (buildQuery coin.aliases) sinceISO
                ((posts.take 300).map (mkRow (pushUsers [] paginator.first.users))))) := by
  have hj : (runCoins world sinceISO coins 0 [])[j]? = some (entryFor (world j) sinceISO coin) := by
    rw [runCoins_entry_at, hc]
    rfl
  rw [hj]
  refine ⟨?_, ?_, ?_⟩
  · intro hs
    simp [entryFor, fetchForCoin, hs]
  · intro paginator posts rest hs hi hk
    simp [entryFor, fetchForCoin, hs, collect_fault paginator posts e rest hi hk]
  · intro paginator posts rest hs hi hk
    refine ⟨?_, ?_⟩
    · simp [entryFor, fetchForCoin, hs, collect_full paginator posts _ hi hk]
    · intro sound hu hi2
      simp [fetchForCoin, collect_ok sound posts hi2, hu]

set_option maxRecDepth 100000 in
/-- Witness of `fault_gives_error_entry`: a fault of the initial search, a fault after one post
and a fault after 300 posts. -/
theorem fault_gives_error_entry_witness :
    (runCoins (fun _ _ _ => .error "Error: rate limit") "s" [linkCoin] 0 [])[0]? =
        some (.failed "LINK" "Error: rate limit") ∧
      (runCoins (fun _ _ _ => .ok faultyPages) "s" [linkCoin] 0 [])[0]? =
        some (.failed "LINK" "Error: rate limit") ∧
      (runCoins (fun _ _ _ => .ok faultAfterCap) "s" [linkCoin] 0 [])[0]? =
        some (.data (summarize linkCoin (buildQuery linkAliases) "s"
          (((List.replicate 300 (tweetBy "101" "1" 7)).take 300).map
            (mkRow (pushUsers [] faultAfterCap.first.users))))) :=
  ⟨(fault_gives_error_entry (fun _ _ _ => .error "Error: rate limit") "s" [linkCoin] 0 linkCoin
      "Error: rate limit" rfl).1 rfl,
    (fault_gives_error_entry (fun _ _ _ => .ok faultyPages) "s" [linkCoin] 0 linkCoin
      "Error: rate limit" rfl).2.1 faultyPages [tweetBy "101" "1" 7] [] rfl rfl (by decide),
    ((fault_gives_error_entry (fun _ _ _ => .ok faultAfterCap) "s" [linkCoin] 0 linkCoin
      "Error: rate limit" rfl).2.2 faultAfterCap (List.replicate 300 (tweetBy "101" "1" 7)) [] rfl
      (by simp [Paginator.items, faultAfterCap, laterItems]) (by simp)).1⟩

/-! ## The empty alias list -/

set_option maxRecDepth 100000 in
/-- C20: `buildQuery` of the empty alias list is the empty group `()` followed by the fixed
suffix of every other query, and `fetchForCoin` of a ticker without aliases hands that query to
the search API and goes on with its answer: against an API that answers this query only, the
result is the data of the ticker, with this query in it, and not an error. -/
theorem buildQuery_empty_aliases (search : String → String → Except String Paginator)
    (sinceISO symbol : String) :
    buildQuery [] = "()" ++ fixedSuffix ∧
      buildQuery [] =
        "() lang:en -is:retweet -is:reply -has:cashtags (\"presale\" OR \"airdrop\" OR \"giveaway\" OR \"bonding curve\" OR \"stealth launch\") (min_faves:5 OR has:mentions OR has:links)" ∧
      fetchForCoin search sinceISO { symbol := symbol, aliases := [] } =
        (match search ("()" ++ fixedSuffix) sinceISO with
         | .error e => .error e
         | .ok paginator =>
           match collect paginator with
           | .error e => .error e
           | .ok c =>
             .ok (summarize { symbol := symbol, aliases := [] } ("()" ++ fixedSuffix)
               sinceISO c.rows)) ∧
      (fetchForCoin emptyGroupSearch "s" { symbol := "NONE", aliases := [] }).toOption.map
          (fun d => (d.symbol, d.query, d.mentions)) =
        some ("NONE", "()" ++ fixedSuffix, 2) := by
  have h0 : buildQuery [] = "()" ++ fixedSuffix := by decide
  refine ⟨h0, by decide, ?_, by decide⟩
  unfold fetchForCoin
  simp only [h0]

end Feed
